import Mathlib

/-!
Shallow embedding of the `log4rs-mqtt` crate (`src/lib.rs`): an MQTT
appender for the log4rs logging framework.  The appender renders a log
record through an encoder into a `BufWriter<Vec<u8>>`, lossily decodes
the writer's internal buffer as UTF-8, strips one trailing newline
(panicking via `unwrap` when it is absent), and publishes the result as
an MQTT message on a configured topic at a configured QoS.

External collaborators (the paho MQTT client, the log4rs pattern
encoder, serde) are modelled at their interface: the client by the
outcome of its create/connect/publish calls, an encoder by the trace of
`write`/`flush` calls it performs on the writer (or its error), and the
serde-derived configuration deserializer by its documented
field-by-field behaviour with `deny_unknown_fields`.
-/

deriving instance DecidableEq for Except

namespace LogMqtt

/-- A structured log record (external log4rs `Record`; only fields a
pattern encoder could render are kept — the appender itself never
inspects the record, it only hands it to the encoder). -/
structure Record where
  level : String
  target : String
  message : String
deriving DecidableEq

/-- UTF-8 encoding of one character (its scalar value as bytes). -/
def encodeChar (c : Char) : List Nat :=
  let n := c.toNat
  if n < 0x80 then [n]
  else if n < 0x800 then
    [0xC0 ||| (n >>> 6), 0x80 ||| (n &&& 0x3F)]
  else if n < 0x10000 then
    [0xE0 ||| (n >>> 12), 0x80 ||| ((n >>> 6) &&& 0x3F), 0x80 ||| (n &&& 0x3F)]
  else
    [0xF0 ||| (n >>> 18), 0x80 ||| ((n >>> 12) &&& 0x3F),
     0x80 ||| ((n >>> 6) &&& 0x3F), 0x80 ||| (n &&& 0x3F)]

/-- UTF-8 bytes of a string (Rust `str::as_bytes`). -/
def strBytes (s : String) : List Nat :=
  (s.data.map encodeChar).flatten

/-- The replacement character U+FFFD inserted by lossy decoding. -/
def replChar : Char := Char.ofNat 0xFFFD

/-- A UTF-8 continuation byte: `0x80 ≤ b < 0xC0`. -/
def utf8IsCont (b : Nat) : Bool := decide (0x80 ≤ b ∧ b < 0xC0)

/-- Admissible second byte of a three-byte sequence with lead `b0`
(`0xE0`: `A0..BF`; `0xED`: `80..9F`; otherwise any continuation). -/
def utf8Second3 (b0 b1 : Nat) : Bool :=
  if b0 = 0xE0 then decide (0xA0 ≤ b1 ∧ b1 < 0xC0)
  else if b0 = 0xED then decide (0x80 ≤ b1 ∧ b1 < 0xA0)
  else utf8IsCont b1

/-- Admissible second byte of a four-byte sequence with lead `b0`
(`0xF0`: `90..BF`; `0xF4`: `80..8F`; otherwise any continuation). -/
def utf8Second4 (b0 b1 : Nat) : Bool :=
  if b0 = 0xF0 then decide (0x90 ≤ b1 ∧ b1 < 0xC0)
  else if b0 = 0xF4 then decide (0x80 ≤ b1 ∧ b1 < 0x90)
  else utf8IsCont b1

/-- Rust `String::from_utf8_lossy`: decode a byte sequence as UTF-8,
replacing each maximal invalid subpart by U+FFFD (the offending byte
that breaks a sequence is re-examined as a fresh lead byte). -/
def utf8DecodeLossy : List Nat → List Char
  | [] => []
  | b0 :: t0 =>
    if b0 < 0x80 then Char.ofNat b0 :: utf8DecodeLossy t0
    else if b0 < 0xC2 then replChar :: utf8DecodeLossy t0
    else if b0 < 0xE0 then
      match t0 with
      | [] => [replChar]
      | b1 :: t1 =>
        if utf8IsCont b1 then
          Char.ofNat (((b0 &&& 0x1F) <<< 6) ||| (b1 &&& 0x3F)) :: utf8DecodeLossy t1
        else replChar :: utf8DecodeLossy (b1 :: t1)
    else if b0 < 0xF0 then
      match t0 with
      | [] => [replChar]
      | b1 :: t1 =>
        if utf8Second3 b0 b1 then
          match t1 with
          | [] => [replChar]
          | b2 :: t2 =>
            if utf8IsCont b2 then
              Char.ofNat (((b0 &&& 0xF) <<< 12) ||| ((b1 &&& 0x3F) <<< 6) ||| (b2 &&& 0x3F))
                :: utf8DecodeLossy t2
            else replChar :: utf8DecodeLossy (b2 :: t2)
        else replChar :: utf8DecodeLossy (b1 :: t1)
    else if b0 < 0xF5 then
      match t0 with
      | [] => [replChar]
      | b1 :: t1 =>
        if utf8Second4 b0 b1 then
          match t1 with
          | [] => [replChar]
          | b2 :: t2 =>
            if utf8IsCont b2 then
              match t2 with
              | [] => [replChar]
              | b3 :: t3 =>
                if utf8IsCont b3 then
                  Char.ofNat (((b0 &&& 0x7) <<< 18) ||| ((b1 &&& 0x3F) <<< 12) |||
                      ((b2 &&& 0x3F) <<< 6) ||| (b3 &&& 0x3F)) :: utf8DecodeLossy t3
                else replChar :: utf8DecodeLossy (b3 :: t3)
            else replChar :: utf8DecodeLossy (b2 :: t2)
        else replChar :: utf8DecodeLossy (b1 :: t1)
    else replChar :: utf8DecodeLossy t0

/-- One call an encoder makes on the writer it is handed: `write` of a
byte chunk (through `StrBuilder` into the `BufWriter`) or `flush`. -/
inductive EncAction
  | write (chunk : List Nat)
  | flush
deriving DecidableEq

/-- Rust `std::io::BufWriter<Vec<u8>>`: `inner` is the wrapped `Vec`,
`buf` the internal buffer, `cap` its capacity (8192 for `new`). -/
structure BufWriterV where
  inner : List Nat
  buf : List Nat
  cap : Nat
deriving DecidableEq

/-- Default `BufWriter` capacity (`DEFAULT_BUF_SIZE`). -/
def bufWriterDefaultCap : Nat := 8192

/-- Rust `BufWriter::new(Vec::new())`: empty inner vector, empty buffer,
default capacity. -/
def BufWriterV.new : BufWriterV :=
  { inner := [], buf := [], cap := bufWriterDefaultCap }

/-- Move the internal buffer's bytes into the inner vector
(`BufWriter::flush_buf`; `Vec::write` always succeeds). -/
def BufWriterV.flushBuf (w : BufWriterV) : BufWriterV :=
  { w with inner := w.inner ++ w.buf, buf := [] }

/-- Rust `BufWriter::write`: flush the internal buffer first when the chunk
would overflow it, then either write the chunk straight to the inner
vector (chunk at least as large as the capacity) or append it to the
internal buffer. -/
def BufWriterV.write (w : BufWriterV) (chunk : List Nat) : BufWriterV :=
  let w1 := if w.cap < w.buf.length + chunk.length then w.flushBuf else w
  if w1.cap ≤ chunk.length then { w1 with inner := w1.inner ++ chunk }
  else { w1 with buf := w1.buf ++ chunk }

/-- Run an encoder's trace of writer calls against a `BufWriter`
(`flush` on the writer is `flush_buf` followed by the inner vector's
no-op flush). -/
def BufWriterV.run (w : BufWriterV) : List EncAction → BufWriterV
  | [] => w
  | .write c :: rest => (w.write c).run rest
  | .flush :: rest => w.flushBuf.run rest

/-- All bytes an action trace writes, in order. -/
def writtenBytes : List EncAction → List Nat
  | [] => []
  | .write c :: rest => c ++ writtenBytes rest
  | .flush :: rest => writtenBytes rest

/-- An MQTT message as assembled by `mqtt::MessageBuilder`: topic, QoS
(an `i32`, stored verbatim) and payload text. -/
structure Message where
  topic : String
  qos : Int
  payload : List Char
deriving DecidableEq

/-- The paho `AsyncClient` at its interface: the server URI and client
id it was created with, and the outcome of publishing a message
(`block_on(publish)`), with errors as their message text. -/
structure MqttClientV where
  serverUri : String
  clientId : Option String
  publish : Message → Except String Unit

/-- A log4rs encoder (`Box<dyn Encode>`): the default `PatternEncoder`
or an arbitrary custom encoder.  Encoding a record either fails or
performs a trace of writer calls. -/
inductive Encoder
  | patternDefault
  | custom (f : Record → Except String (List EncAction))

/-- Modelled from the spec: the default pattern-based encoder is an
external collaborator (log4rs `PatternEncoder::default()`) whose exact
format is out of scope; it renders the record's fields as one
newline-terminated text line written in a single `write` call. -/
def patternDefaultRender (r : Record) : Except String (List EncAction) :=
  .ok [.write (strBytes (r.level ++ " " ++ r.target ++ " - " ++ r.message ++ "\n"))]

/-- Running `Encode::encode(&mut writer, record)`: the calls the encoder makes
on the writer, or its error. -/
def Encoder.encode : Encoder → Record → Except String (List EncAction)
  | .patternDefault, r => patternDefaultRender r
  | .custom f, r => f r

/-- The `MqttAppender` structure: topic, QoS, encoder and the owned
connected client. -/
structure MqttAppender where
  topic : String
  qos : Int
  encoder : Encoder
  mqtt : MqttClientV

/-- Rust `str::strip_suffix("\n")`: `some` of the text with the final
newline removed when the text ends in one, `none` otherwise. -/
def stripSuffixNewline (s : List Char) : Option (List Char) :=
  match s.getLast? with
  | some c => if c = '\n' then some s.dropLast else none
  | none => none

/-- How one `append` call ends: `Ok(())`, an encoder error propagated
by `?`, a publish error propagated by `?`, or the panic of
`strip_suffix("\n").unwrap()`. -/
inductive AppendResult
  | ok
  | encodeError (e : String)
  | publishError (e : String)
  | panicked
deriving DecidableEq

/-- Observable outcome of `append`: how the call ended, plus the list
of messages handed to `publish` (the wire PUBLISH attempts). -/
structure AppendOutcome where
  result : AppendResult
  publishAttempts : List Message
deriving DecidableEq

/-- Model of `MqttAppender::append` (src/lib.rs lines 80–91): encode the record
into a fresh `BufWriter<Vec<u8>>` wrapped in `StrBuilder`, lossily
decode the writer's *internal buffer* (`buffer.buf.buffer()`) as UTF-8,
build the message with the configured topic and QoS and the payload
with one trailing newline stripped (`unwrap` panics when there is
none), and publish it once. -/
def MqttAppender.append (a : MqttAppender) (r : Record) : AppendOutcome :=
  match a.encoder.encode r with
  | .error e => ⟨.encodeError e, []⟩
  | .ok acts =>
    match stripSuffixNewline (utf8DecodeLossy (BufWriterV.new.run acts).buf) with
    | none => ⟨.panicked, []⟩
    | some p =>
      match a.mqtt.publish ⟨a.topic, a.qos, p⟩ with
      | .error e => ⟨.publishError e, [⟨a.topic, a.qos, p⟩]⟩
      | .ok _ => ⟨.ok, [⟨a.topic, a.qos, p⟩]⟩

/-- Model of `MqttAppender::flush`: it does nothing. -/
def MqttAppender.flush (_ : MqttAppender) : Unit := ()

/-- The `MqttAppenderBuilder` structure: every field optional. -/
structure MqttAppenderBuilder where
  topic : Option String
  qos : Option Int
  encoder : Option Encoder
  mqtt_server : Option String
  mqtt_client_id : Option String

/-- Model of `MqttAppender::builder()`: all fields `None`. -/
def MqttAppender.builder : MqttAppenderBuilder :=
  { topic := none, qos := none, encoder := none,
    mqtt_server := none, mqtt_client_id := none }

/-- Builder setter `encoder` (named `setEncoder` because Lean reserves
the field name). -/
def MqttAppenderBuilder.setEncoder (b : MqttAppenderBuilder) (e : Encoder) :
    MqttAppenderBuilder :=
  { b with encoder := some e }

/-- Builder setter `topic`. -/
def MqttAppenderBuilder.setTopic (b : MqttAppenderBuilder) (t : String) :
    MqttAppenderBuilder :=
  { b with topic := some t }

/-- Builder setter `qos`: stores the given `i32` unchanged. -/
def MqttAppenderBuilder.setQos (b : MqttAppenderBuilder) (q : Int) :
    MqttAppenderBuilder :=
  { b with qos := some q }

/-- Builder setter `mqtt_server`. -/
def MqttAppenderBuilder.setMqttServer (b : MqttAppenderBuilder) (h : String) :
    MqttAppenderBuilder :=
  { b with mqtt_server := some h }

/-- Builder setter `mqtt_client_id`. -/
def MqttAppenderBuilder.setMqttClientId (b : MqttAppenderBuilder) (c : String) :
    MqttAppenderBuilder :=
  { b with mqtt_client_id := some c }

/-- Environment modelling the external paho MQTT library at `build`
time: whether `AsyncClient::new` succeeds, whether the blocking initial
`connect` succeeds, and the publish behaviour of the resulting
connection. -/
structure MqttEnv where
  createOk : Bool
  connectOk : Bool
  publish : Message → Except String Unit

/-- Result of `build()`: either the appender, or the panic of
`expect("Unable to create MQTT client")` / `connect(...).unwrap()`.
There is no error-value constructor: `build` returns `MqttAppender`,
not a `Result`. -/
inductive BuildResult
  | panicked
  | built (a : MqttAppender)

/-- Model of `MqttAppenderBuilder::build` (src/lib.rs lines 155–174): create the
client with the configured (or default) server URI and optional client
id, panic if creation fails, connect with a 5 s timeout and 5 s–300 s
automatic reconnect and panic if that fails, then assemble the appender
with defaults topic `"logging"`, QoS `0` and `PatternEncoder::default()`. -/
def MqttAppenderBuilder.build (b : MqttAppenderBuilder) (env : MqttEnv) :
    BuildResult :=
  let serverUri := b.mqtt_server.getD "mqtt://localhost:1883"
  if env.createOk = false then .panicked
  else if env.connectOk = false then .panicked
  else .built
    { topic := b.topic.getD "logging"
      qos := b.qos.getD 0
      encoder := b.encoder.getD .patternDefault
      mqtt := { serverUri := serverUri, clientId := b.mqtt_client_id,
                publish := env.publish } }

/-- A nested `encoder:` configuration (`log4rs::encode::EncoderConfig`):
a `kind` string and an uninterpreted configuration blob. -/
structure EncoderConfigV where
  kind : String
  config : String
deriving DecidableEq

/-- The `MqttAppenderConfig` structure: five optional fields, derived
serde `Deserialize` with `deny_unknown_fields`. -/
structure MqttAppenderConfig where
  topic : Option String
  qos : Option Int
  encoder : Option EncoderConfigV
  mqtt_server : Option String
  mqtt_client_id : Option String
deriving DecidableEq

/-- The all-`None` configuration (serde leaves missing `Option` fields
as `None`). -/
def MqttAppenderConfig.empty : MqttAppenderConfig :=
  { topic := none, qos := none, encoder := none,
    mqtt_server := none, mqtt_client_id := none }

/-- A value in a configuration map entry: string, integer, or a nested
encoder configuration. -/
inductive ConfigValue
  | str (s : String)
  | int (i : Int)
  | enc (e : EncoderConfigV)
deriving DecidableEq

/-- A serde deserialization error for the configuration struct: an
unknown field, a duplicate field, or a value of the wrong type. -/
inductive DeError
  | unknownField (k : String)
  | duplicateField (k : String)
  | invalidType (k : String)
deriving DecidableEq

/-- The field names the derived `Deserialize` recognises. -/
def knownFields : List String :=
  ["topic", "qos", "encoder", "mqtt_server", "mqtt_client_id"]

/-- One step of the serde-derived visitor: match the key against the
five declared fields (rejecting a duplicate or an ill-typed value) and
reject any other key (`deny_unknown_fields`). -/
def applyConfigField (acc : MqttAppenderConfig) (k : String) (v : ConfigValue) :
    Except DeError MqttAppenderConfig :=
  if k = "topic" then
    match acc.topic, v with
    | some _, _ => .error (.duplicateField k)
    | none, .str s => .ok { acc with topic := some s }
    | none, _ => .error (.invalidType k)
  else if k = "qos" then
    match acc.qos, v with
    | some _, _ => .error (.duplicateField k)
    | none, .int i => .ok { acc with qos := some i }
    | none, _ => .error (.invalidType k)
  else if k = "encoder" then
    match acc.encoder, v with
    | some _, _ => .error (.duplicateField k)
    | none, .enc e => .ok { acc with encoder := some e }
    | none, _ => .error (.invalidType k)
  else if k = "mqtt_server" then
    match acc.mqtt_server, v with
    | some _, _ => .error (.duplicateField k)
    | none, .str s => .ok { acc with mqtt_server := some s }
    | none, _ => .error (.invalidType k)
  else if k = "mqtt_client_id" then
    match acc.mqtt_client_id, v with
    | some _, _ => .error (.duplicateField k)
    | none, .str s => .ok { acc with mqtt_client_id := some s }
    | none, _ => .error (.invalidType k)
  else .error (.unknownField k)

/-- Serde visiting the configuration record's key/value entries in
order. -/
def parseConfigFrom (acc : MqttAppenderConfig) :
    List (String × ConfigValue) → Except DeError MqttAppenderConfig
  | [] => .ok acc
  | (k, v) :: rest =>
    match applyConfigField acc k v with
    | .error e => .error e
    | .ok acc2 => parseConfigFrom acc2 rest

/-- Deserializing an `MqttAppenderConfig` from a configuration record
given as a list of key/value entries. -/
def deserializeConfig (entries : List (String × ConfigValue)) :
    Except DeError MqttAppenderConfig :=
  parseConfigFrom MqttAppenderConfig.empty entries

/-- Result of `MqttAppenderDeserializer::deserialize`: an error (from
the nested encoder deserialization), the panic inside `build()`, or the
boxed appender. -/
inductive DeserializeResult
  | error (e : String)
  | panicked
  | built (a : MqttAppender)

/-- View a `build()` outcome as a `deserialize` outcome (`Ok(Box::new(
appender.build()))`, with the panic passing through). -/
def BuildResult.toDeserializeResult : BuildResult → DeserializeResult
  | .panicked => .panicked
  | .built a => .built a

/-- Model of `MqttAppenderDeserializer::deserialize` (src/lib.rs lines 208–226):
apply each present configuration field to the builder in declaration
order (the nested encoder is deserialized through the registry,
propagating its error with `?`), then `build()`.  `encDeser` models
`deserializers.deserialize` for encoders. -/
def MqttAppenderDeserializer.deserialize (config : MqttAppenderConfig)
    (encDeser : EncoderConfigV → Except String Encoder) (env : MqttEnv) :
    DeserializeResult :=
  let appender := MqttAppender.builder
  let appender := match config.topic with
    | some t => appender.setTopic t
    | none => appender
  let appender := match config.qos with
    | some q => appender.setQos q
    | none => appender
  let withEncoder : Except String MqttAppenderBuilder :=
    match config.encoder with
    | some e =>
      match encDeser e with
      | .error msg => .error msg
      | .ok enc => .ok (appender.setEncoder enc)
    | none => .ok appender
  match withEncoder with
  | .error msg => .error msg
  | .ok appender =>
    let appender := match config.mqtt_server with
      | some s => appender.setMqttServer s
      | none => appender
    let appender := match config.mqtt_client_id with
      | some c => appender.setMqttClientId c
      | none => appender
    (appender.build env).toDeserializeResult

/-- An entry in the log4rs `Deserializers` registry: this crate's
appender deserializer, or any other registered deserializer. -/
inductive DeserializerEntry
  | mqttAppender
  | other (id : Nat)
deriving DecidableEq

/-- The log4rs `Deserializers` registry at its interface: lookup of the
deserializer registered for a kind key. -/
abbrev Deserializers := String → Option DeserializerEntry

/-- Model of `Deserializers::insert`: map the key to the new deserializer,
replacing any previous entry for it. -/
def Deserializers.insert (d : Deserializers) (k : String)
    (v : DeserializerEntry) : Deserializers :=
  fun key => if key = k then some v else d key

/-- Model of `register` (src/lib.rs lines 230–233): insert the `"mqtt"` key —
twice, as the source does. -/
def register (d : Deserializers) : Deserializers :=
  (d.insert "mqtt" .mqttAppender).insert "mqtt" .mqttAppender

/-! Concrete fixtures used to instantiate the theorems. -/

/-- A publish behaviour that always succeeds. -/
def nullPublish : Message → Except String Unit := fun _ => .ok ()

/-- A publish behaviour that always fails. -/
def failPublish : Message → Except String Unit := fun _ => .error "publish failed"

/-- A library environment where creation and connection succeed. -/
def envOk : MqttEnv := ⟨true, true, nullPublish⟩

/-- A library environment where client creation fails. -/
def envNoCreate : MqttEnv := ⟨false, true, nullPublish⟩

/-- A sample log record. -/
def testRecord : Record := ⟨"INFO", "app", "hello"⟩

/-- An encoder that writes a fixed text in one `write` call. -/
def lineEncoder (s : String) : Encoder :=
  .custom (fun _ => .ok [.write (strBytes s)])

/-- An encoder that writes `"hi\n"`, flushes the writer, then writes
`"x\n"`: its full rendered output is `"hi\nx\n"` but only `"x\n"`
remains in the writer's internal buffer. -/
def flushingEncoder : Encoder :=
  .custom (fun _ => .ok [.write (strBytes "hi\n"), .flush, .write (strBytes "x\n")])

/-- An encoder that always fails. -/
def failingEncoder : Encoder := .custom (fun _ => .error "encoder failed")

/-- The writer-call trace `flushingEncoder` performs. -/
def flushingActions : List EncAction :=
  [.write (strBytes "hi\n"), .flush, .write (strBytes "x\n")]

/-- The appender `build()` produces from an untouched builder in a
healthy environment. -/
def defaultAppender : MqttAppender :=
  { topic := "logging", qos := 0, encoder := .patternDefault,
    mqtt := ⟨"mqtt://localhost:1883", none, nullPublish⟩ }

/-- Appender whose encoder renders a newline-terminated line. -/
def appNl : MqttAppender :=
  ⟨"logs", 1, lineEncoder "ok line\n", ⟨"mqtt://localhost:1883", none, nullPublish⟩⟩

/-- Appender whose encoder renders text without a trailing newline. -/
def appNoNl : MqttAppender :=
  ⟨"logs", 1, lineEncoder "no newline", ⟨"mqtt://localhost:1883", none, nullPublish⟩⟩

/-- Appender whose encoder fails. -/
def appEncFail : MqttAppender :=
  ⟨"logs", 0, failingEncoder, ⟨"mqtt://localhost:1883", none, nullPublish⟩⟩

/-- Appender whose publish call fails. -/
def appPubFail : MqttAppender :=
  ⟨"logs", 0, lineEncoder "x\n", ⟨"mqtt://localhost:1883", none, failPublish⟩⟩

/-- Appender with the flushing encoder, for the flush-through
counterexample. -/
def cexAppender : MqttAppender :=
  ⟨"logs", 1, flushingEncoder, ⟨"mqtt://localhost:1883", none, nullPublish⟩⟩

/-- A configuration record with an unrecognized key. -/
def cfgEntriesUnknown : List (String × ConfigValue) :=
  [("topic", .str "t"), ("bogus", .int 1)]

/-- A configuration record with recognized keys only. -/
def cfgEntriesKnown : List (String × ConfigValue) :=
  [("topic", .str "t"), ("qos", .int 2)]

/-- A parsed configuration whose qos is the out-of-range value `-5`. -/
def cfgNegQos : MqttAppenderConfig := ⟨none, some (-5), none, none, none⟩

/-- An encoder-registry behaviour (never consulted by the fixtures that
use it). -/
def encDeserNone : EncoderConfigV → Except String Encoder :=
  fun _ => .error "no encoder deserializer"

/-- The appender built from a builder whose only set field is
`qos = -5`. -/
def qosAppender : MqttAppender :=
  ⟨"logging", -5, .patternDefault, ⟨"mqtt://localhost:1883", none, nullPublish⟩⟩

/-! Lemmas about the `BufWriter` model and the `append` pipeline. -/

/-- Writing through the `BufWriter` never loses or reorders bytes: the
inner vector followed by the internal buffer is the original content
followed by everything the trace wrote. -/
lemma BufWriterV.run_inner_append_buf (acts : List EncAction) (w : BufWriterV) :
    (w.run acts).inner ++ (w.run acts).buf = w.inner ++ w.buf ++ writtenBytes acts := by
  induction acts generalizing w with
  | nil => simp [BufWriterV.run, writtenBytes]
  | cons a rest ih =>
    cases a with
    | write c =>
      simp only [BufWriterV.run, writtenBytes, ih]
      simp only [BufWriterV.write, BufWriterV.flushBuf]
      split <;> split <;> try simp [List.append_assoc]
      rename_i h1 h2
      have hb : w.buf = [] := List.length_eq_zero.mp (by omega)
      simp [hb]
    | flush =>
      simp [BufWriterV.run, writtenBytes, ih, BufWriterV.flushBuf]

/-- Every message `append` hands to `publish` carries the appender's
configured topic and QoS. -/
lemma MqttAppender.mem_publishAttempts (a : MqttAppender) (r : Record)
    (m : Message) (hm : m ∈ (a.append r).publishAttempts) :
    m.topic = a.topic ∧ m.qos = a.qos := by
  unfold MqttAppender.append at hm
  split at hm
  · simp at hm
  · split at hm
    · simp at hm
    · split at hm <;> simp_all

/-- Each `append` call hands at most one message to `publish`. -/
lemma MqttAppender.publishAttempts_length_le (a : MqttAppender) (r : Record) :
    (a.append r).publishAttempts.length ≤ 1 := by
  unfold MqttAppender.append
  split
  · simp
  · split
    · simp
    · split <;> simp

/-- Rust `strip_suffix("\n")` returns `None` exactly when the text does not
end in a newline. -/
lemma stripSuffixNewline_eq_none (s : List Char) :
    stripSuffixNewline s = none ↔ s.getLast? ≠ some '\n' := by
  unfold stripSuffixNewline
  cases h : s.getLast? with
  | none => simp
  | some c =>
    by_cases hc : c = '\n' <;> simp [hc]

/-- Rust `strip_suffix("\n")` on a newline-terminated text drops its last
character. -/
lemma stripSuffixNewline_eq_some (s : List Char) (h : s.getLast? = some '\n') :
    stripSuffixNewline s = some s.dropLast := by
  unfold stripSuffixNewline
  rw [h]
  simp

/-- Whatever `strip_suffix("\n")` returns is the text without its last
character. -/
lemma stripSuffixNewline_some_eq (s p : List Char)
    (h : stripSuffixNewline s = some p) : p = s.dropLast := by
  unfold stripSuffixNewline at h
  split at h
  · split at h
    · exact (Option.some_inj.mp h).symm
    · exact absurd h (by simp)
  · exact absurd h (by simp)

/-- When the internal buffer holds everything (nothing reached the
inner vector), it is exactly the full written output. -/
lemma BufWriterV.run_new_buf_eq (acts : List EncAction)
    (h : (BufWriterV.new.run acts).inner = []) :
    (BufWriterV.new.run acts).buf = writtenBytes acts := by
  have hi := BufWriterV.run_inner_append_buf acts BufWriterV.new
  rw [h] at hi
  simpa [BufWriterV.new] using hi

/-- Field-by-field description of the appender a successful `build`
returns. -/
lemma MqttAppenderBuilder.build_built (b : MqttAppenderBuilder) (env : MqttEnv)
    (a : MqttAppender) (h : b.build env = .built a) :
    a.topic = b.topic.getD "logging" ∧ a.qos = b.qos.getD 0 ∧
    a.encoder = b.encoder.getD .patternDefault ∧
    a.mqtt.serverUri = b.mqtt_server.getD "mqtt://localhost:1883" ∧
    a.mqtt.clientId = b.mqtt_client_id ∧ a.mqtt.publish = env.publish := by
  simp only [MqttAppenderBuilder.build] at h
  split at h
  · exact absurd h (by simp)
  · split at h
    · exact absurd h (by simp)
    · injection h with h2
      subst h2
      exact ⟨rfl, rfl, rfl, rfl, rfl, rfl⟩

/-- A successful field application means the key was a declared one. -/
lemma applyConfigField_ok_mem (acc : MqttAppenderConfig) (k : String)
    (v : ConfigValue) (acc2 : MqttAppenderConfig)
    (h : applyConfigField acc k v = .ok acc2) : k ∈ knownFields := by
  unfold applyConfigField at h
  split_ifs at h with h1 h2 h3 h4 h5
  · simp [knownFields, h1]
  · simp [knownFields, h2]
  · simp [knownFields, h3]
  · simp [knownFields, h4]
  · simp [knownFields, h5]

/-- An `unknown field` rejection only happens for a key outside the
declared five, and names that key. -/
lemma applyConfigField_unknown (acc : MqttAppenderConfig) (k : String)
    (v : ConfigValue) (k0 : String)
    (h : applyConfigField acc k v = .error (.unknownField k0)) :
    k ∉ knownFields ∧ k0 = k := by
  unfold applyConfigField at h
  split_ifs at h with h1 h2 h3 h4 h5
  · cases htop : acc.topic <;> cases v <;> simp_all
  · cases hq : acc.qos <;> cases v <;> simp_all
  · cases he : acc.encoder <;> cases v <;> simp_all
  · cases hs : acc.mqtt_server <;> cases v <;> simp_all
  · cases hc : acc.mqtt_client_id <;> cases v <;> simp_all
  · exact ⟨by simp [knownFields, h1, h2, h3, h4, h5],
      by injection h with h6; injection h6 with h7; exact h7.symm⟩

/-- A configuration record with a key outside the declared five never
deserializes successfully. -/
lemma parseConfigFrom_unknown_error (entries : List (String × ConfigValue)) :
    ∀ acc : MqttAppenderConfig, (∃ kv ∈ entries, kv.1 ∉ knownFields) →
    ∃ e, parseConfigFrom acc entries = .error e := by
  induction entries with
  | nil => intro acc h; simp at h
  | cons hd tl ih =>
    intro acc h
    obtain ⟨kv, hmem, hunk⟩ := h
    obtain ⟨k, v⟩ := hd
    cases happ : applyConfigField acc k v with
    | error e => exact ⟨e, by simp [parseConfigFrom, happ]⟩
    | ok acc2 =>
      rcases List.mem_cons.mp hmem with heq | htl
      · exact absurd (applyConfigField_ok_mem acc k v acc2 happ)
          (by rw [heq] at hunk; exact hunk)
      · obtain ⟨e, he⟩ := ih acc2 ⟨kv, htl, hunk⟩
        exact ⟨e, by simp [parseConfigFrom, happ, he]⟩

/-- A configuration record whose keys are all declared is never
rejected for an unknown field. -/
lemma parseConfigFrom_known_no_unknown (entries : List (String × ConfigValue)) :
    ∀ (acc : MqttAppenderConfig) (k0 : String),
    (∀ kv ∈ entries, kv.1 ∈ knownFields) →
    parseConfigFrom acc entries ≠ .error (.unknownField k0) := by
  induction entries with
  | nil => intro acc k0 _ hcontra; simp [parseConfigFrom] at hcontra
  | cons hd tl ih =>
    intro acc k0 hall hcontra
    obtain ⟨k, v⟩ := hd
    cases happ : applyConfigField acc k v with
    | error e =>
      simp [parseConfigFrom, happ] at hcontra
      subst hcontra
      exact (applyConfigField_unknown acc k v k0 happ).1
        (hall (k, v) (List.mem_cons_self _ _))
    | ok acc2 =>
      simp only [parseConfigFrom, happ] at hcontra
      exact ih acc2 k0 (fun kv hm => hall kv (List.mem_cons_of_mem _ hm)) hcontra

/-- The QoS of the appender a successful `build` returns is the
builder's QoS (or the default `0`). -/
lemma MqttAppenderBuilder.build_built_qos (b : MqttAppenderBuilder)
    (env : MqttEnv) (a : MqttAppender) (h : b.build env = .built a) :
    a.qos = b.qos.getD 0 :=
  (MqttAppenderBuilder.build_built b env a h).2.1

/-- A `deserialize` outcome that is `built` came from a `build` that
returned that appender. -/
lemma BuildResult.built_of_toDeserializeResult (x : BuildResult)
    (a : MqttAppender) (h : x.toDeserializeResult = .built a) :
    x = .built a := by
  cases x with
  | panicked => exact absurd h (by simp [BuildResult.toDeserializeResult])
  | built a2 =>
    injection h with h2
    rw [h2]

/-- The QoS of the appender the deserializer builds is the configured
QoS (or the default `0`), whatever the other fields hold. -/
lemma deserialize_built_qos (cfg : MqttAppenderConfig)
    (encDeser : EncoderConfigV → Except String Encoder) (env : MqttEnv)
    (a : MqttAppender)
    (h : MqttAppenderDeserializer.deserialize cfg encDeser env = .built a) :
    a.qos = cfg.qos.getD 0 := by
  obtain ⟨t0, q0, e0, s0, c0⟩ := cfg
  cases e0 with
  | none =>
    cases t0 <;> cases q0 <;> cases s0 <;> cases c0 <;>
      (dsimp only [MqttAppenderDeserializer.deserialize, MqttAppender.builder,
         MqttAppenderBuilder.setTopic, MqttAppenderBuilder.setQos,
         MqttAppenderBuilder.setMqttServer,
         MqttAppenderBuilder.setMqttClientId] at h;
       simpa using MqttAppenderBuilder.build_built_qos _ _ _
         (BuildResult.built_of_toDeserializeResult _ _ h))
  | some ec =>
    cases henc : encDeser ec with
    | error msg =>
      dsimp only [MqttAppenderDeserializer.deserialize] at h
      rw [henc] at h
      exact absurd h (by simp)
    | ok enc =>
      cases t0 <;> cases q0 <;> cases s0 <;> cases c0 <;>
        (dsimp only [MqttAppenderDeserializer.deserialize, MqttAppender.builder,
           MqttAppenderBuilder.setTopic, MqttAppenderBuilder.setQos,
           MqttAppenderBuilder.setMqttServer,
           MqttAppenderBuilder.setMqttClientId] at h;
         rw [henc] at h;
         dsimp only [MqttAppenderBuilder.setEncoder] at h;
         simpa using MqttAppenderBuilder.build_built_qos _ _ _
           (BuildResult.built_of_toDeserializeResult _ _ h))

/-! The claims. -/

/-- C1, counterexample to the claim as stated: with a configured
appender whose encoder flushes the writer mid-record, the rendered
text `"hi\nx\n"` ends in a newline and `append` publishes exactly one
message on the configured topic and QoS, but its payload `"x"` is not
the rendered text with one trailing newline removed (`"hi\nx"`). -/
theorem c1_counterexample :
    cexAppender.encoder.encode testRecord = .ok flushingActions ∧
    (utf8DecodeLossy (writtenBytes flushingActions)).getLast? = some '\n' ∧
    (cexAppender.append testRecord).publishAttempts = [⟨"logs", 1, ['x']⟩] ∧
    ['x'] ≠ (utf8DecodeLossy (writtenBytes flushingActions)).dropLast := by
  decide

/-- C1 (amended): for every record whose buffered rendered text (the
lossy UTF-8 decoding of the writer's internal buffer) ends in a
newline, `append` hands exactly one message to `publish`, on the
configured topic at the configured QoS, whose payload is that text
with exactly one trailing newline removed; whenever the encoder caused
no byte to be flushed through to the inner vector, that payload equals
the full rendered text with exactly one trailing newline removed. -/
theorem c1_append_publishes_trimmed (a : MqttAppender) (r : Record)
    (acts : List EncAction) (h : a.encoder.encode r = .ok acts)
    (hnl : (utf8DecodeLossy (BufWriterV.new.run acts).buf).getLast? = some '\n') :
    (a.append r).publishAttempts =
      [⟨a.topic, a.qos, (utf8DecodeLossy (BufWriterV.new.run acts).buf).dropLast⟩] ∧
    ((BufWriterV.new.run acts).inner = [] →
      (a.append r).publishAttempts =
        [⟨a.topic, a.qos, (utf8DecodeLossy (writtenBytes acts)).dropLast⟩]) := by
  have hstrip := stripSuffixNewline_eq_some _ hnl
  have h1 : (a.append r).publishAttempts =
      [⟨a.topic, a.qos, (utf8DecodeLossy (BufWriterV.new.run acts).buf).dropLast⟩] := by
    simp only [MqttAppender.append, h, hstrip]
    split <;> rfl
  exact ⟨h1, fun hinner => by rw [h1, BufWriterV.run_new_buf_eq acts hinner]⟩

/-- C1, witness: the amended theorem applied to a newline-terminated
single-write encoder. -/
theorem c1_witness :
    appNl.encoder.encode testRecord = .ok [.write (strBytes "ok line\n")] ∧
    (utf8DecodeLossy (BufWriterV.new.run
      [.write (strBytes "ok line\n")]).buf).getLast? = some '\n' ∧
    (appNl.append testRecord).publishAttempts = [⟨"logs", 1, "ok line".data⟩] :=
  ⟨by decide, by decide, by
    have h := c1_append_publishes_trimmed appNl testRecord
      [.write (strBytes "ok line\n")] (by decide) (by decide)
    exact h.1.trans (by decide)⟩

/-- C2: for every record whose rendered, lossily UTF-8-decoded text
does not end in a newline character, `append` panics on the `unwrap`
of the missing suffix — it neither returns an error nor publishes
anything. -/
theorem c2_append_panics_without_newline (a : MqttAppender) (r : Record)
    (acts : List EncAction) (h : a.encoder.encode r = .ok acts)
    (hnl : (utf8DecodeLossy (BufWriterV.new.run acts).buf).getLast? ≠ some '\n') :
    a.append r = ⟨.panicked, []⟩ := by
  have hstrip := (stripSuffixNewline_eq_none _).mpr hnl
  simp only [MqttAppender.append, h, hstrip]

/-- C2, witness: an encoder rendering `"no newline"` makes `append`
panic with no publish attempt. -/
theorem c2_witness :
    appNoNl.encoder.encode testRecord = .ok [.write (strBytes "no newline")] ∧
    appNoNl.append testRecord = ⟨.panicked, []⟩ :=
  ⟨by decide, c2_append_panics_without_newline appNoNl testRecord
    [.write (strBytes "no newline")] (by decide) (by decide)⟩

/-- C3: `append` builds the published payload from the `BufWriter`'s
unflushed internal buffer only; the inner vector plus the buffer is the
full encoded output, and the buffer equals the full encoded output
exactly when no byte was flushed through to the inner vector. -/
theorem c3_payload_from_internal_buffer (a : MqttAppender) (r : Record)
    (acts : List EncAction) (h : a.encoder.encode r = .ok acts) :
    (∀ m ∈ (a.append r).publishAttempts,
      m.payload = (utf8DecodeLossy (BufWriterV.new.run acts).buf).dropLast) ∧
    (BufWriterV.new.run acts).inner ++ (BufWriterV.new.run acts).buf =
      writtenBytes acts ∧
    ((BufWriterV.new.run acts).buf = writtenBytes acts ↔
      (BufWriterV.new.run acts).inner = []) := by
  have h2 : (BufWriterV.new.run acts).inner ++ (BufWriterV.new.run acts).buf =
      writtenBytes acts := by
    have hi := BufWriterV.run_inner_append_buf acts BufWriterV.new
    simpa [BufWriterV.new] using hi
  refine ⟨?_, h2, ?_, ?_⟩
  · intro m hm
    simp only [MqttAppender.append, h] at hm
    split at hm
    · simp at hm
    · rename_i p heq
      have hp := stripSuffixNewline_some_eq _ _ heq
      split at hm <;> (simp at hm; rw [hm]; exact hp)
  · intro hbuf
    rw [hbuf] at h2
    have hlen := congrArg List.length h2
    simp at hlen
    exact hlen
  · exact BufWriterV.run_new_buf_eq acts

/-- C3, witness: the theorem applied to the flushing encoder, where the
inner vector is nonempty and the buffer differs from the full output. -/
theorem c3_witness :
    cexAppender.encoder.encode testRecord = .ok flushingActions ∧
    ((∀ m ∈ (cexAppender.append testRecord).publishAttempts,
      m.payload =
        (utf8DecodeLossy (BufWriterV.new.run flushingActions).buf).dropLast) ∧
    (BufWriterV.new.run flushingActions).inner ++
      (BufWriterV.new.run flushingActions).buf = writtenBytes flushingActions ∧
    ((BufWriterV.new.run flushingActions).buf = writtenBytes flushingActions ↔
      (BufWriterV.new.run flushingActions).inner = [])) :=
  ⟨by decide, c3_payload_from_internal_buffer cexAppender testRecord
    flushingActions (by decide)⟩

/-- C4: building from a builder on which no setter was called yields an
appender with topic `"logging"`, QoS `0`, the default pattern-based
encoder, and a client created for `"mqtt://localhost:1883"`. -/
theorem c4_build_defaults (env : MqttEnv) (a : MqttAppender)
    (h : MqttAppender.builder.build env = .built a) :
    a.topic = "logging" ∧ a.qos = 0 ∧ a.encoder = .patternDefault ∧
    a.mqtt.serverUri = "mqtt://localhost:1883" := by
  have hb := MqttAppenderBuilder.build_built _ _ _ h
  simp only [MqttAppender.builder, Option.getD_none] at hb
  exact ⟨hb.1, hb.2.1, hb.2.2.1, hb.2.2.2.1⟩

/-- C4, witness: the untouched builder in a healthy environment builds
the default appender. -/
theorem c4_witness :
    MqttAppender.builder.build envOk = .built defaultAppender ∧
    defaultAppender.topic = "logging" ∧ defaultAppender.qos = 0 ∧
    defaultAppender.encoder = .patternDefault ∧
    defaultAppender.mqtt.serverUri = "mqtt://localhost:1883" :=
  ⟨rfl, c4_build_defaults envOk defaultAppender rfl⟩

/-- C5: every failure of `append` surfaces synchronously from the call:
an encoder error is returned with no message constructed or published,
a publish error is returned after exactly one publish attempt, and no
call ever makes more than one publish attempt. -/
theorem c5_append_failures_synchronous (a : MqttAppender) (r : Record) :
    (∀ e, a.encoder.encode r = .error e → a.append r = ⟨.encodeError e, []⟩) ∧
    (a.append r).publishAttempts.length ≤ 1 ∧
    (∀ acts p e, a.encoder.encode r = .ok acts →
      stripSuffixNewline (utf8DecodeLossy (BufWriterV.new.run acts).buf) = some p →
      a.mqtt.publish ⟨a.topic, a.qos, p⟩ = .error e →
      a.append r = ⟨.publishError e, [⟨a.topic, a.qos, p⟩]⟩) := by
  refine ⟨?_, MqttAppender.publishAttempts_length_le a r, ?_⟩
  · intro e he
    simp only [MqttAppender.append, he]
  · intro acts p e h hs hp
    simp only [MqttAppender.append, h, hs, hp]

/-- C5, witness: a failing encoder yields a local encode error with no
publish attempt; a failing publish yields a local publish error after
exactly one attempt. -/
theorem c5_witness :
    appEncFail.encoder.encode testRecord = .error "encoder failed" ∧
    appEncFail.append testRecord = ⟨.encodeError "encoder failed", []⟩ ∧
    appPubFail.append testRecord =
      ⟨.publishError "publish failed", [⟨"logs", 0, ['x']⟩]⟩ :=
  ⟨by decide,
   (c5_append_failures_synchronous appEncFail testRecord).1 "encoder failed"
     (by decide),
   by
     have h := (c5_append_failures_synchronous appPubFail testRecord).2.2
       [.write (strBytes "x\n")] ['x'] "publish failed"
       (by decide) (by decide) (by decide)
     exact h.trans (by decide)⟩

/-- C6: `build()` panics — it returns neither an appender nor an error
value (the result type has no error constructor) — whenever client
creation or the initial blocking connect fails. -/
theorem c6_build_panics_on_failure (b : MqttAppenderBuilder) (env : MqttEnv)
    (h : env.createOk = false ∨ env.connectOk = false) :
    b.build env = .panicked := by
  simp only [MqttAppenderBuilder.build]
  rcases h with h | h
  · simp [h]
  · cases hc : env.createOk <;> simp [h, hc]

/-- C6, witness: a failing client creation makes `build` panic. -/
theorem c6_witness :
    (envNoCreate.createOk = false ∨ envNoCreate.connectOk = false) ∧
    MqttAppender.builder.build envNoCreate = .panicked :=
  ⟨Or.inl rfl,
   c6_build_panics_on_failure MqttAppender.builder envNoCreate (Or.inl rfl)⟩

/-- C7: a configuration record containing any key outside the five
declared ones fails to deserialize, and a record containing only
recognized keys is never rejected for an unknown field. -/
theorem c7_strict_config_schema (entries : List (String × ConfigValue)) :
    ((∃ kv ∈ entries, kv.1 ∉ knownFields) →
      ∃ e, deserializeConfig entries = .error e) ∧
    ((∀ kv ∈ entries, kv.1 ∈ knownFields) →
      ∀ k, deserializeConfig entries ≠ .error (.unknownField k)) :=
  ⟨fun h => parseConfigFrom_unknown_error entries MqttAppenderConfig.empty h,
   fun h k => parseConfigFrom_known_no_unknown entries MqttAppenderConfig.empty k h⟩

/-- C7, witness: the theorem applied to a record with the unknown key
`"bogus"` and to a record with recognized keys only. -/
theorem c7_witness :
    (∃ kv ∈ cfgEntriesUnknown, kv.1 ∉ knownFields) ∧
    (∃ e, deserializeConfig cfgEntriesUnknown = .error e) ∧
    (∀ kv ∈ cfgEntriesKnown, kv.1 ∈ knownFields) ∧
    deserializeConfig cfgEntriesKnown ≠ .error (.unknownField "bogus") :=
  ⟨by decide,
   (c7_strict_config_schema cfgEntriesUnknown).1 (by decide),
   by decide,
   (c7_strict_config_schema cfgEntriesKnown).2 (by decide) "bogus"⟩

/-- C8: once the encoder has produced bytes, `append` never fails
because of them — decoding is lossy and total, so its result is never
an encode error — and an invalid lead byte is decoded as the
replacement character while decoding continues. -/
theorem c8_lossy_utf8_never_fails (a : MqttAppender) (r : Record)
    (acts : List EncAction) (h : a.encoder.encode r = .ok acts) :
    (∀ e, (a.append r).result ≠ .encodeError e) ∧
    (∀ b t, 0x80 ≤ b → b < 0xC2 →
      utf8DecodeLossy (b :: t) = replChar :: utf8DecodeLossy t) := by
  constructor
  · intro e
    simp only [MqttAppender.append, h]
    split
    · simp
    · split <;> simp
  · intro b t hb1 hb2
    rw [utf8DecodeLossy.eq_def]
    dsimp only
    rw [if_neg (by omega), if_pos (by omega)]

/-- C8, witness: the appender proceeds past decoding, and the invalid
byte `0x90` decodes to the replacement character followed by the rest. -/
theorem c8_witness :
    appNl.encoder.encode testRecord = .ok [.write (strBytes "ok line\n")] ∧
    (appNl.append testRecord).result ≠ .encodeError "any" ∧
    utf8DecodeLossy [0x90, 0x0A] = [replChar, '\n'] :=
  ⟨by decide,
   (c8_lossy_utf8_never_fails appNl testRecord
     [.write (strBytes "ok line\n")] (by decide)).1 "any",
   by
     have h := (c8_lossy_utf8_never_fails appNl testRecord
       [.write (strBytes "ok line\n")] (by decide)).2 0x90 [0x0A]
       (by decide) (by decide)
     exact h.trans (by decide)⟩

/-- C9: registering the `"mqtt"` deserializer twice, as the source's
`register` does, leaves the registry looking exactly like a single
insertion, for every registry and every key looked up. -/
theorem c9_register_idempotent (d : Deserializers) (k : String) :
    register d k = (d.insert "mqtt" .mqttAppender) k := by
  by_cases hk : k = "mqtt" <;> simp [register, Deserializers.insert, hk]

/-- C10: the QoS is never validated: any `i32` value — negative or
greater than 2 — is stored by the setter unchanged, passed through by
the deserializer's mapping, stored verbatim by `build`, and carried by
every published message. -/
theorem c10_qos_unvalidated (q : Int) (hlo : -(2 ^ 31) ≤ q) (hhi : q < 2 ^ 31)
    (b : MqttAppenderBuilder) (env : MqttEnv) (r : Record)
    (cfg : MqttAppenderConfig) (hq : cfg.qos = some q)
    (encDeser : EncoderConfigV → Except String Encoder) :
    (b.setQos q).qos = some q ∧
    (∀ a, (b.setQos q).build env = .built a →
      a.qos = q ∧ ∀ m ∈ (a.append r).publishAttempts, m.qos = q) ∧
    (∀ a, MqttAppenderDeserializer.deserialize cfg encDeser env = .built a →
      a.qos = q ∧ ∀ m ∈ (a.append r).publishAttempts, m.qos = q) := by
  refine ⟨rfl, ?_, ?_⟩
  · intro a ha
    have hqos : a.qos = q := by
      have hb := MqttAppenderBuilder.build_built_qos _ _ _ ha
      simpa [MqttAppenderBuilder.setQos] using hb
    exact ⟨hqos, fun m hm => by
      rw [(MqttAppender.mem_publishAttempts a r m hm).2, hqos]⟩
  · intro a ha
    have hqos : a.qos = q := by
      have hd := deserialize_built_qos _ _ _ _ ha
      simpa [hq] using hd
    exact ⟨hqos, fun m hm => by
      rw [(MqttAppender.mem_publishAttempts a r m hm).2, hqos]⟩

/-- C10, witness: the out-of-range QoS `-5` flows unchanged through the
setter and through `build`, and every published message carries it. -/
theorem c10_witness :
    cfgNegQos.qos = some (-5) ∧
    (MqttAppender.builder.setQos (-5)).qos = some (-5) ∧
    qosAppender.qos = -5 ∧
    (∀ m ∈ (qosAppender.append testRecord).publishAttempts, m.qos = -5) := by
  have h := c10_qos_unvalidated (-5) (by decide) (by decide)
    MqttAppender.builder envOk testRecord cfgNegQos rfl encDeserNone
  exact ⟨rfl, h.1, (h.2.1 qosAppender rfl).1, (h.2.1 qosAppender rfl).2⟩

end LogMqtt
